import Mathlib

set_option maxRecDepth 100000

/-!
Shallow embedding of `src/Birdgame.py`, a Flappy-Bird style game.

Modelling conventions:
* Python floats on the bird's `y` / `velocity` are modelled as `ℚ`; every value
  reachable in the program is an exact multiple of 1/2 (gravity 0.5, jump -10),
  so IEEE doubles and rationals agree exactly on all reachable arithmetic.
* Pipe coordinates, scores and counters stay integers, as in the source.
* `pygame.Rect` stores integer fields; float arguments are truncated toward
  zero (C `long` conversion); `pyInt` reproduces that.
* `pygame.Rect.colliderect` uses strict inequalities on all four sides
  (edge-touching rectangles do not collide); `collide` reproduces that.
* Rendering and the pygame clock are external collaborators with no effect on
  the game state and are not modelled.  A `QUIT` event terminates the process
  and is outside the per-frame state transformer.
-/

/-- Constants from the top of `Birdgame.py`. -/
def SCREEN_WIDTH : ℤ := 400

def SCREEN_HEIGHT : ℤ := 600

def PIPE_WIDTH : ℤ := 80

def PIPE_GAP : ℤ := 150

def GRAVITY : ℚ := 1/2

def JUMP_STRENGTH : ℚ := -10

/-- Truncation toward zero of a rational, as the C conversion used by
`pygame.Rect` on Python floats. -/
def pyInt (q : ℚ) : ℤ := if 0 ≤ q then ⌊q⌋ else -⌊-q⌋

/-- A `pygame.Rect`: integer position and size. -/
structure Rect where
  x : ℤ
  y : ℤ
  w : ℤ
  h : ℤ
deriving DecidableEq, Repr

/-- `Rect.top` of pygame. -/
def Rect.top (r : Rect) : ℤ := r.y

/-- `Rect.bottom` of pygame. -/
def Rect.bottom (r : Rect) : ℤ := r.y + r.h

/-- `pygame.Rect.colliderect`: strict overlap test on both axes. -/
def collide (a b : Rect) : Bool :=
  decide (a.x < b.x + b.w) && decide (a.y < b.y + b.h) &&
  decide (b.x < a.x + a.w) && decide (b.y < a.y + a.h)

/-- The `Bird` class: fixed `x` and `size`, float `y` and `velocity`. -/
structure Bird where
  x : ℤ
  y : ℚ
  size : ℤ
  velocity : ℚ
deriving DecidableEq, Repr

/-- `Bird.__init__`. -/
def Bird.init : Bird := { x := 50, y := 300, size := 20, velocity := 0 }

/-- `Bird.jump`: overwrite the velocity with `JUMP_STRENGTH`. -/
def Bird.jump (b : Bird) : Bird := { b with velocity := JUMP_STRENGTH }

/-- `Bird.move`: gravity is added to the velocity, then the velocity to `y`. -/
def Bird.move (b : Bird) : Bird :=
  { b with velocity := b.velocity + GRAVITY, y := b.y + (b.velocity + GRAVITY) }

/-- `Bird.get_rect`: `pygame.Rect(x, y, size, size)` (y truncated). -/
def Bird.get_rect (b : Bird) : Rect :=
  { x := b.x, y := pyInt b.y, w := b.size, h := b.size }

/-- The `Pipe` class. -/
structure Pipe where
  x : ℤ
  gap_y : ℤ
  velocity : ℤ
  passed : Bool
deriving DecidableEq, Repr

/-- `Pipe.__init__(x, gap_y)`: velocity is always -4, `passed` starts false. -/
def Pipe.init (x gap_y : ℤ) : Pipe :=
  { x := x, gap_y := gap_y, velocity := -4, passed := false }

/-- `Pipe.move`: advance horizontally by the pipe's velocity. -/
def Pipe.move (p : Pipe) : Pipe := { p with x := p.x + p.velocity }

/-- `Pipe.off_screen`: `x < -PIPE_WIDTH`. -/
def Pipe.off_screen (p : Pipe) : Bool := decide (p.x < -PIPE_WIDTH)

/-- `Pipe.get_upper_rect`: from the top of the screen down to the gap. -/
def Pipe.get_upper_rect (p : Pipe) : Rect :=
  { x := p.x, y := 0, w := PIPE_WIDTH, h := p.gap_y - PIPE_GAP / 2 }

/-- `Pipe.get_lower_rect`: starts below the gap, with height `SCREEN_HEIGHT`. -/
def Pipe.get_lower_rect (p : Pipe) : Rect :=
  { x := p.x, y := p.gap_y + PIPE_GAP / 2, w := PIPE_WIDTH, h := SCREEN_HEIGHT }

/-- The mutable state of the `Game` class (screen, clock and font are
rendering collaborators carrying no game state). -/
structure Game where
  bird : Bird
  pipes : List Pipe
  score : ℕ
  game_over : Bool
  pipe_spawn_counter : ℕ
deriving DecidableEq, Repr

/-- `Game.reset_game` (also the state right after `Game.__init__`). -/
def Game.reset_game : Game :=
  { bird := Bird.init, pipes := [], score := 0, game_over := false,
    pipe_spawn_counter := 0 }

/-- A keyboard event seen by `Game._handle_events`: a SPACE keydown, or any
other key (ignored by the game). -/
inductive Event where
  | space
  | other
deriving DecidableEq, Repr

/-- Effect of one event in `Game._handle_events`: while playing SPACE jumps,
after a game over SPACE resets the game. -/
def Game.handle_event (g : Game) (e : Event) : Game :=
  match e with
  | Event.space =>
      if g.game_over then Game.reset_game else { g with bird := g.bird.jump }
  | Event.other => g

/-- `Game._handle_events`: the frame's events are processed in order. -/
def Game.handle_events (g : Game) (events : List Event) : Game :=
  events.foldl Game.handle_event g

/-- The loop and boundary test of `Game._check_collisions`:
`game_over` is set when the bird rectangle collides with a pipe rectangle or
leaves the vertical screen bounds, and is left unchanged otherwise. -/
def Game.check_collisions (g : Game) : Game :=
  let br := g.bird.get_rect
  let pipeHit := g.pipes.any fun p =>
    collide br p.get_upper_rect || collide br p.get_lower_rect
  let boundHit := decide (br.top < 0) || decide (SCREEN_HEIGHT < br.bottom)
  if pipeHit || boundHit then { g with game_over := true } else g

/-- The scoring loop at the end of `Game._manage_pipes`: walk the pipe list;
a pipe whose right edge is strictly left of the bird's `x` and that is not yet
`passed` increments the score and is marked `passed`. -/
def scorePass (bx : ℤ) : List Pipe → ℕ → List Pipe × ℕ
  | [], n => ([], n)
  | p :: ps, n =>
      if p.x + PIPE_WIDTH < bx ∧ p.passed = false then
        let r := scorePass bx ps (n + 1)
        ({ p with passed := true } :: r.1, r.2)
      else
        let r := scorePass bx ps n
        (p :: r.1, r.2)

/-- The spawn step of `Game._manage_pipes`: the counter is incremented and,
past 90, a new pipe appears at the right screen edge and the counter resets.
`gap` stands for the `random.randint(PIPE_GAP, SCREEN_HEIGHT - PIPE_GAP)`
draw of that frame. -/
def Game.spawn_step (g : Game) (gap : ℤ) : Game :=
  if 90 < g.pipe_spawn_counter + 1 then
    { g with pipes := g.pipes ++ [Pipe.init SCREEN_WIDTH gap],
             pipe_spawn_counter := 0 }
  else
    { g with pipe_spawn_counter := g.pipe_spawn_counter + 1 }

/-- `Game._manage_pipes`: spawn bookkeeping, off-screen removal, scoring. -/
def Game.manage_pipes (g : Game) (gap : ℤ) : Game :=
  let g1 := g.spawn_step gap
  let g2 := { g1 with pipes := g1.pipes.filter fun p => !p.off_screen }
  let r := scorePass g2.bird.x g2.pipes g2.score
  { g2 with pipes := r.1, score := r.2 }

/-- The movement block of `Game.run` while playing: `bird.move()` followed by
`pipe.move()` for every pipe. -/
def Game.moved (g : Game) : Game :=
  { g with bird := g.bird.move, pipes := g.pipes.map Pipe.move }

/-- One iteration of the `while` loop in `Game.run`: handle events, and if the
game is not over, move everything, manage pipes, then check collisions. -/
def Game.frame (g : Game) (events : List Event) (gap : ℤ) : Game :=
  let gh := g.handle_events events
  if gh.game_over then gh
  else ((gh.moved).manage_pipes gap).check_collisions

/-- States reachable from the initial game by frames whose random gap draw is
in the range of `random.randint(PIPE_GAP, SCREEN_HEIGHT - PIPE_GAP)`. -/
inductive Reachable : Game → Prop
  | init : Reachable Game.reset_game
  | step {g : Game} (events : List Event) {gap : ℤ} (hg : Reachable g)
      (h1 : PIPE_GAP ≤ gap) (h2 : gap ≤ SCREEN_HEIGHT - PIPE_GAP) :
      Reachable (g.frame events gap)

/-- A concrete input schedule that keeps the bird alive forever: SPACE is
pressed on frames 11, 50, 89, ... (every 39 frames), putting the bird on a
vertical cycle between y = 232.5 and y = 327.5, clear of screen bounds and of
every pipe gap placed at 300. -/
def jumpFrame (t : ℕ) : Bool := decide (11 ≤ t) && decide ((t - 11) % 39 = 0)

/-- The game state after `n` frames of the `jumpFrame` schedule with every
random gap draw equal to 300. -/
def runN : ℕ → Game
  | 0 => Game.reset_game
  | n + 1 =>
      (runN n).frame (if jumpFrame (n + 1) then [Event.space] else []) 300

/-!
Integer mirror of the game, used to evaluate concrete runs inside the kernel:
the bird's float `y` and `velocity` are stored doubled (`y2 = 2*y`,
`v2 = 2*velocity`), which is exact because gravity is 1/2 and the jump
strength -10.  `toGame` maps the mirror back to the rational model, and
`frameZ_toGame` proves the two evolve identically.
-/

/-- `a / 2` rounded toward zero, mirroring `pyInt` on a doubled value. -/
def pyHalf (a : ℤ) : ℤ := if 0 ≤ a then a / 2 else -(-a / 2)

/-- The bird with doubled (hence integer) vertical state. -/
structure BirdZ where
  x : ℤ
  y2 : ℤ
  size : ℤ
  v2 : ℤ
deriving DecidableEq, Repr

/-- Mirror of `Bird.init`: y = 300, velocity = 0. -/
def BirdZ.init : BirdZ := { x := 50, y2 := 600, size := 20, v2 := 0 }

/-- Mirror of `Bird.jump`: velocity = -10. -/
def BirdZ.jump (b : BirdZ) : BirdZ := { b with v2 := -20 }

/-- Mirror of `Bird.move`: gravity 1/2 doubles to 1. -/
def BirdZ.move (b : BirdZ) : BirdZ :=
  { b with v2 := b.v2 + 1, y2 := b.y2 + (b.v2 + 1) }

/-- Mirror of `Bird.get_rect`. -/
def BirdZ.get_rect (b : BirdZ) : Rect :=
  { x := b.x, y := pyHalf b.y2, w := b.size, h := b.size }

/-- The game state with the integer bird. -/
structure GameZ where
  bird : BirdZ
  pipes : List Pipe
  score : ℕ
  game_over : Bool
  pipe_spawn_counter : ℕ
deriving DecidableEq, Repr

/-- Mirror of `Game.reset_game`. -/
def GameZ.reset_game : GameZ :=
  { bird := BirdZ.init, pipes := [], score := 0, game_over := false,
    pipe_spawn_counter := 0 }

/-- Mirror of `Game.handle_event`. -/
def GameZ.handle_event (g : GameZ) (e : Event) : GameZ :=
  match e with
  | Event.space =>
      if g.game_over then GameZ.reset_game else { g with bird := g.bird.jump }
  | Event.other => g

/-- Mirror of `Game.handle_events`. -/
def GameZ.handle_events (g : GameZ) (events : List Event) : GameZ :=
  events.foldl GameZ.handle_event g

/-- Mirror of `Game.check_collisions`. -/
def GameZ.check_collisions (g : GameZ) : GameZ :=
  let br := g.bird.get_rect
  let pipeHit := g.pipes.any fun p =>
    collide br p.get_upper_rect || collide br p.get_lower_rect
  let boundHit := decide (br.top < 0) || decide (SCREEN_HEIGHT < br.bottom)
  if pipeHit || boundHit then { g with game_over := true } else g

/-- Mirror of `Game.spawn_step`. -/
def GameZ.spawn_step (g : GameZ) (gap : ℤ) : GameZ :=
  if 90 < g.pipe_spawn_counter + 1 then
    { g with pipes := g.pipes ++ [Pipe.init SCREEN_WIDTH gap],
             pipe_spawn_counter := 0 }
  else
    { g with pipe_spawn_counter := g.pipe_spawn_counter + 1 }

/-- Mirror of `Game.manage_pipes`. -/
def GameZ.manage_pipes (g : GameZ) (gap : ℤ) : GameZ :=
  let g1 := g.spawn_step gap
  let g2 := { g1 with pipes := g1.pipes.filter fun p => !p.off_screen }
  let r := scorePass g2.bird.x g2.pipes g2.score
  { g2 with pipes := r.1, score := r.2 }

/-- Mirror of `Game.moved`. -/
def GameZ.moved (g : GameZ) : GameZ :=
  { g with bird := g.bird.move, pipes := g.pipes.map Pipe.move }

/-- Mirror of `Game.frame`. -/
def GameZ.frame (g : GameZ) (events : List Event) (gap : ℤ) : GameZ :=
  let gh := g.handle_events events
  if gh.game_over then gh
  else ((gh.moved).manage_pipes gap).check_collisions

/-- Interpretation of the integer bird in the rational model. -/
def toBird (b : BirdZ) : Bird :=
  { x := b.x, y := (b.y2 : ℚ) / 2, size := b.size, velocity := (b.v2 : ℚ) / 2 }

/-- Interpretation of the integer game state in the rational model. -/
def toGame (g : GameZ) : Game :=
  { bird := toBird g.bird, pipes := g.pipes, score := g.score,
    game_over := g.game_over, pipe_spawn_counter := g.pipe_spawn_counter }

/-- Mirror of `runN`. -/
def runNZ : ℕ → GameZ
  | 0 => GameZ.reset_game
  | n + 1 =>
      (runNZ n).frame (if jumpFrame (n + 1) then [Event.space] else []) 300

/-- The transformation the scoring loop applies to each pipe of the list. -/
def markPipe (bx : ℤ) (p : Pipe) : Pipe :=
  if p.x + PIPE_WIDTH < bx ∧ p.passed = false then
    { p with passed := true }
  else p

/-- The inductive invariant of reachable game states. -/
structure StateInv (g : Game) : Prop where
  bird_x : g.bird.x = 50
  bird_size : g.bird.size = 20
  counter_le : g.pipe_spawn_counter ≤ 90
  vel : ∀ p ∈ g.pipes, p.velocity = -4
  gap_low : ∀ p ∈ g.pipes, PIPE_GAP ≤ p.gap_y
  gap_high : ∀ p ∈ g.pipes, p.gap_y ≤ SCREEN_HEIGHT - PIPE_GAP
  x_bound : ∀ p ∈ g.pipes, p.x ≤ SCREEN_WIDTH - 4 * (g.pipe_spawn_counter : ℤ)
  passed_inv : ∀ p ∈ g.pipes, p.x + PIPE_WIDTH < 50 → p.passed = true
  sorted : g.pipes.Pairwise fun a b => a.x + 364 ≤ b.x

/-- Strict axis-aligned overlap of two rectangles, as the specification words
it: the rectangles share area on both axes, edge-touching not counted. -/
def strictOverlap (a b : Rect) : Prop :=
  max a.x b.x < min (a.x + a.w) (b.x + b.w) ∧
  max a.y b.y < min (a.y + a.h) (b.y + b.h)

/-- The specification's collision condition over a post-movement state: the
entity's bounding box strictly overlaps some obstacle's upper or lower
barrier, or leaves the vertical screen bounds. -/
def specCollision (b : Bird) (pipes : List Pipe) : Prop :=
  (∃ p ∈ pipes, strictOverlap b.get_rect p.get_upper_rect ∨
    strictOverlap b.get_rect p.get_lower_rect) ∨
  b.get_rect.top < 0 ∨ SCREEN_HEIGHT < b.get_rect.bottom

/-- The pipe list a playing frame submits to its scoring loop: the frame's
pipes after movement, spawn bookkeeping and off-screen removal. -/
def Game.prescore (g : Game) (events : List Event) (gap : ℤ) : List Pipe :=
  (((g.handle_events events).moved).spawn_step gap).pipes.filter
    fun p => !p.off_screen

/-- The pipe list a playing frame's removal pass examines: the frame's pipes
after movement and spawn bookkeeping, before the off-screen filter. -/
def Game.removal_candidates (g : Game) (events : List Event) (gap : ℤ) :
    List Pipe :=
  (((g.handle_events events).moved).spawn_step gap).pipes

/-- Mirror of `Game.removal_candidates` on the integer model. -/
def GameZ.removal_candidates (g : GameZ) (events : List Event) (gap : ℤ) :
    List Pipe :=
  (((g.handle_events events).moved).spawn_step gap).pipes

theorem floor_intCast_div_two (b : ℤ) : ⌊(b : ℚ) / 2⌋ = b / 2 := by
  have h := Rat.floor_intCast_div_natCast b 2
  push_cast at h
  simpa using h

theorem pyInt_half (a : ℤ) : pyInt ((a : ℚ) / 2) = pyHalf a := by
  unfold pyInt pyHalf
  rcases le_or_lt 0 a with h | h
  · rw [if_pos (div_nonneg (by exact_mod_cast h) (by norm_num)),
      if_pos h, floor_intCast_div_two]
  · rw [if_neg (not_le.2 (div_neg_of_neg_of_pos (by exact_mod_cast h)
      (by norm_num))), if_neg (not_le.2 h)]
    have hneg : -((a : ℚ) / 2) = ((-a : ℤ) : ℚ) / 2 := by push_cast; ring
    rw [hneg, floor_intCast_div_two]

theorem get_rect_toBird (b : BirdZ) : (toBird b).get_rect = b.get_rect := by
  simp [toBird, Bird.get_rect, BirdZ.get_rect, pyInt_half]

theorem move_toBird (b : BirdZ) : (toBird b).move = toBird b.move := by
  simp only [toBird, Bird.move, BirdZ.move, GRAVITY, Bird.mk.injEq]
  refine ⟨trivial, by push_cast; ring, trivial, by push_cast; ring⟩

theorem jump_toBird (b : BirdZ) : (toBird b).jump = toBird b.jump := by
  simp only [toBird, Bird.jump, BirdZ.jump, JUMP_STRENGTH]
  norm_num

theorem reset_toGame : toGame GameZ.reset_game = Game.reset_game := by
  simp only [toGame, toBird, GameZ.reset_game, Game.reset_game,
    BirdZ.init, Bird.init]
  norm_num

theorem handle_event_toGame (g : GameZ) (e : Event) :
    (toGame g).handle_event e = toGame (g.handle_event e) := by
  cases e with
  | space =>
      by_cases h : g.game_over
      · have h1 : (toGame g).handle_event Event.space = Game.reset_game := by
          simp [Game.handle_event, toGame, h]
        have h2 : g.handle_event Event.space = GameZ.reset_game := by
          simp [GameZ.handle_event, h]
        rw [h1, h2, reset_toGame]
      · have h1 : (toGame g).handle_event Event.space
            = { toGame g with bird := (toGame g).bird.jump } := by
          simp [Game.handle_event, toGame, h]
        have h2 : g.handle_event Event.space
            = { g with bird := g.bird.jump } := by
          simp [GameZ.handle_event, h]
        rw [h1, h2]
        simp [toGame, jump_toBird]
  | other => rfl

theorem handle_events_toGame (g : GameZ) (events : List Event) :
    (toGame g).handle_events events = toGame (g.handle_events events) := by
  induction events generalizing g with
  | nil => rfl
  | cons e es ih =>
      simp only [Game.handle_events, GameZ.handle_events, List.foldl_cons]
      rw [handle_event_toGame]
      exact ih _

theorem check_collisions_toGame (g : GameZ) :
    (toGame g).check_collisions = toGame g.check_collisions := by
  simp only [Game.check_collisions, GameZ.check_collisions, toGame,
    get_rect_toBird]
  by_cases h : (g.pipes.any fun p =>
      collide g.bird.get_rect p.get_upper_rect ||
      collide g.bird.get_rect p.get_lower_rect) ||
      (decide (g.bird.get_rect.top < 0) ||
       decide (SCREEN_HEIGHT < g.bird.get_rect.bottom)) <;>
    simp [h, toGame]

theorem manage_pipes_toGame (g : GameZ) (gap : ℤ) :
    (toGame g).manage_pipes gap = toGame (g.manage_pipes gap) := by
  simp only [Game.manage_pipes, GameZ.manage_pipes, Game.spawn_step,
    GameZ.spawn_step, toGame, toBird]
  by_cases h : 90 < g.pipe_spawn_counter + 1 <;> simp [h, toGame, toBird]

theorem moved_toGame (g : GameZ) : (toGame g).moved = toGame g.moved := by
  simp [Game.moved, GameZ.moved, toGame, move_toBird]

theorem frame_toGame (g : GameZ) (events : List Event) (gap : ℤ) :
    (toGame g).frame events gap = toGame (g.frame events gap) := by
  unfold Game.frame GameZ.frame
  rw [handle_events_toGame]
  have hgo : (toGame (g.handle_events events)).game_over
      = (g.handle_events events).game_over := rfl
  by_cases h : (g.handle_events events).game_over = true
  · rw [if_pos (hgo.trans h), if_pos h]
  · rw [if_neg (fun hc => h (hgo.symm.trans hc)), if_neg h,
      moved_toGame, manage_pipes_toGame, check_collisions_toGame]

theorem runN_eq_toGame (n : ℕ) : runN n = toGame (runNZ n) := by
  induction n with
  | zero => exact reset_toGame.symm
  | succ n ih => rw [runN, runNZ, ih, frame_toGame]

theorem runN_pipes (n : ℕ) : (runN n).pipes = (runNZ n).pipes := by
  rw [runN_eq_toGame]; rfl

theorem scorePass_fst (bx : ℤ) (l : List Pipe) (n : ℕ) :
    (scorePass bx l n).1 = l.map (markPipe bx) := by
  induction l generalizing n with
  | nil => rfl
  | cons p ps ih =>
      unfold scorePass
      by_cases h : p.x + PIPE_WIDTH < bx ∧ p.passed = false
      · have hm : markPipe bx p = { p with passed := true } := by
          unfold markPipe; rw [if_pos h]
        simp [if_pos h, ih, hm]
      · have hm : markPipe bx p = p := by
          unfold markPipe; rw [if_neg h]
        simp [if_neg h, ih, hm]

theorem scorePass_snd (bx : ℤ) (l : List Pipe) (n : ℕ) :
    (scorePass bx l n).2
      = n + (l.filter fun p =>
          decide (p.x + PIPE_WIDTH < bx ∧ p.passed = false)).length := by
  induction l generalizing n with
  | nil => simp [scorePass]
  | cons p ps ih =>
      unfold scorePass
      by_cases h : p.x + PIPE_WIDTH < bx ∧ p.passed = false
      · simp [h, ih]
        omega
      · simp [h, ih]

theorem markPipe_x (bx : ℤ) (p : Pipe) : (markPipe bx p).x = p.x := by
  unfold markPipe; split <;> rfl

theorem markPipe_gap_y (bx : ℤ) (p : Pipe) :
    (markPipe bx p).gap_y = p.gap_y := by
  unfold markPipe; split <;> rfl

theorem markPipe_velocity (bx : ℤ) (p : Pipe) :
    (markPipe bx p).velocity = p.velocity := by
  unfold markPipe; split <;> rfl

theorem markPipe_passed_of (bx : ℤ) (p : Pipe)
    (h : p.x + PIPE_WIDTH < bx) : (markPipe bx p).passed = true := by
  unfold markPipe
  by_cases hp : p.passed = false
  · rw [if_pos ⟨h, hp⟩]
  · rw [if_neg fun hc => hp hc.2]
    cases hpp : p.passed with
    | false => exact absurd hpp hp
    | true => rfl

theorem markPipe_passed_mono (bx : ℤ) (p : Pipe) (h : p.passed = true) :
    (markPipe bx p).passed = true := by
  unfold markPipe; split
  · rfl
  · exact h

theorem spawn_step_bird (g : Game) (gap : ℤ) :
    (g.spawn_step gap).bird = g.bird := by
  unfold Game.spawn_step; split <;> rfl

theorem spawn_step_score (g : Game) (gap : ℤ) :
    (g.spawn_step gap).score = g.score := by
  unfold Game.spawn_step; split <;> rfl

theorem spawn_step_game_over (g : Game) (gap : ℤ) :
    (g.spawn_step gap).game_over = g.game_over := by
  unfold Game.spawn_step; split <;> rfl

theorem check_collisions_pipes (g : Game) :
    g.check_collisions.pipes = g.pipes := by
  simp only [Game.check_collisions]; split <;> rfl

theorem check_collisions_bird (g : Game) :
    g.check_collisions.bird = g.bird := by
  simp only [Game.check_collisions]; split <;> rfl

theorem check_collisions_score (g : Game) :
    g.check_collisions.score = g.score := by
  simp only [Game.check_collisions]; split <;> rfl

theorem check_collisions_counter (g : Game) :
    g.check_collisions.pipe_spawn_counter = g.pipe_spawn_counter := by
  simp only [Game.check_collisions]; split <;> rfl

theorem manage_pipes_pipes (g : Game) (gap : ℤ) :
    (g.manage_pipes gap).pipes
      = ((g.spawn_step gap).pipes.filter fun p => !p.off_screen).map
          (markPipe g.bird.x) := by
  simp only [Game.manage_pipes]
  rw [scorePass_fst, spawn_step_bird]

theorem manage_pipes_score (g : Game) (gap : ℤ) :
    (g.manage_pipes gap).score
      = g.score + (((g.spawn_step gap).pipes.filter fun p =>
          !p.off_screen).filter fun p =>
            decide (p.x + PIPE_WIDTH < g.bird.x ∧ p.passed = false)).length := by
  simp only [Game.manage_pipes]
  rw [scorePass_snd, spawn_step_bird, spawn_step_score]

theorem manage_pipes_bird (g : Game) (gap : ℤ) :
    (g.manage_pipes gap).bird = g.bird := by
  simp only [Game.manage_pipes]
  rw [spawn_step_bird]

theorem manage_pipes_game_over (g : Game) (gap : ℤ) :
    (g.manage_pipes gap).game_over = g.game_over := by
  simp only [Game.manage_pipes]
  rw [spawn_step_game_over]

theorem manage_pipes_counter (g : Game) (gap : ℤ) :
    (g.manage_pipes gap).pipe_spawn_counter
      = (g.spawn_step gap).pipe_spawn_counter := rfl

theorem inv_reset : StateInv Game.reset_game := by
  refine ⟨rfl, rfl, by decide, ?_, ?_, ?_, ?_, ?_, ?_⟩ <;>
    simp [Game.reset_game]

theorem inv_handle_event (g : Game) (e : Event) (hg : StateInv g) :
    StateInv (g.handle_event e) := by
  cases e with
  | other => exact hg
  | space =>
      unfold Game.handle_event
      by_cases h : g.game_over = true
      · rw [if_pos h]
        exact inv_reset
      · rw [if_neg h]
        exact ⟨hg.bird_x, hg.bird_size, hg.counter_le, hg.vel, hg.gap_low,
          hg.gap_high, hg.x_bound, hg.passed_inv, hg.sorted⟩

theorem inv_handle_events (g : Game) (events : List Event) (hg : StateInv g) :
    StateInv (g.handle_events events) := by
  induction events generalizing g with
  | nil => exact hg
  | cons e es ih => exact ih _ (inv_handle_event g e hg)

theorem spawn_step_pipes_pos (s : Game) (gap : ℤ)
    (hc : 90 < s.pipe_spawn_counter + 1) :
    (s.spawn_step gap).pipes = s.pipes ++ [Pipe.init SCREEN_WIDTH gap]
      ∧ (s.spawn_step gap).pipe_spawn_counter = 0 := by
  unfold Game.spawn_step
  rw [if_pos hc]
  exact ⟨rfl, rfl⟩

theorem spawn_step_pipes_neg (s : Game) (gap : ℤ)
    (hc : ¬90 < s.pipe_spawn_counter + 1) :
    (s.spawn_step gap).pipes = s.pipes
      ∧ (s.spawn_step gap).pipe_spawn_counter = s.pipe_spawn_counter + 1 := by
  unfold Game.spawn_step
  rw [if_neg hc]
  exact ⟨rfl, rfl⟩

theorem inv_manage_check (s : Game) (gap : ℤ)
    (hbx : s.bird.x = 50) (hbs : s.bird.size = 20)
    (hcnt : s.pipe_spawn_counter ≤ 90)
    (hvel : ∀ p ∈ s.pipes, p.velocity = -4)
    (hgl : ∀ p ∈ s.pipes, PIPE_GAP ≤ p.gap_y)
    (hgh : ∀ p ∈ s.pipes, p.gap_y ≤ SCREEN_HEIGHT - PIPE_GAP)
    (hxb : ∀ p ∈ s.pipes,
      p.x ≤ SCREEN_WIDTH - 4 * (s.pipe_spawn_counter : ℤ) - 4)
    (hsorted : s.pipes.Pairwise fun a b => a.x + 364 ≤ b.x)
    (h1 : PIPE_GAP ≤ gap) (h2 : gap ≤ SCREEN_HEIGHT - PIPE_GAP) :
    StateInv ((s.manage_pipes gap).check_collisions) := by
  by_cases hc : 90 < s.pipe_spawn_counter + 1
  · obtain ⟨hsp, hsc⟩ := spawn_step_pipes_pos s gap hc
    have hc90 : s.pipe_spawn_counter = 90 := le_antisymm hcnt (by omega)
    have hmem : ∀ p ∈ ((s.manage_pipes gap).check_collisions).pipes,
        ∃ q, (q ∈ s.pipes ∨ q = Pipe.init SCREEN_WIDTH gap)
          ∧ p = markPipe s.bird.x q := by
      intro p hp
      rw [check_collisions_pipes, manage_pipes_pipes, hsp] at hp
      rcases List.mem_map.1 hp with ⟨q, hq, rfl⟩
      rcases List.mem_filter.1 hq with ⟨hq1, _⟩
      rcases List.mem_append.1 hq1 with h | h
      · exact ⟨q, Or.inl h, rfl⟩
      · exact ⟨q, Or.inr (List.mem_singleton.1 h), rfl⟩
    refine ⟨?_, ?_, ?_, ?_, ?_, ?_, ?_, ?_, ?_⟩
    · rw [check_collisions_bird, manage_pipes_bird]; exact hbx
    · rw [check_collisions_bird, manage_pipes_bird]; exact hbs
    · rw [check_collisions_counter, manage_pipes_counter, hsc]; omega
    · intro p hp
      rcases hmem p hp with ⟨q, hq, rfl⟩
      rw [markPipe_velocity]
      rcases hq with h | rfl
      · exact hvel q h
      · rfl
    · intro p hp
      rcases hmem p hp with ⟨q, hq, rfl⟩
      rw [markPipe_gap_y]
      rcases hq with h | rfl
      · exact hgl q h
      · exact h1
    · intro p hp
      rcases hmem p hp with ⟨q, hq, rfl⟩
      rw [markPipe_gap_y]
      rcases hq with h | rfl
      · exact hgh q h
      · exact h2
    · intro p hp
      rw [check_collisions_counter, manage_pipes_counter, hsc]
      rcases hmem p hp with ⟨q, hq, rfl⟩
      rw [markPipe_x]
      rcases hq with h | rfl
      · have hx := hxb q h
        rw [hc90] at hx
        simp only [SCREEN_WIDTH] at hx ⊢
        push_cast at hx ⊢
        omega
      · simp [Pipe.init, SCREEN_WIDTH]
    · intro p hp hlt
      rcases hmem p hp with ⟨q, hq, rfl⟩
      rw [markPipe_x] at hlt
      exact markPipe_passed_of _ _ (by rw [hbx]; exact hlt)
    · rw [check_collisions_pipes, manage_pipes_pipes, hsp,
        List.pairwise_map]
      have hbase : ((s.pipes ++ [Pipe.init SCREEN_WIDTH gap]).filter
          fun p => !p.off_screen).Pairwise fun a b => a.x + 364 ≤ b.x := by
        apply List.Pairwise.sublist (List.filter_sublist _)
        rw [List.pairwise_append]
        refine ⟨hsorted, by simp, ?_⟩
        intro a ha b hb
        rw [List.mem_singleton.1 hb]
        have hx := hxb a ha
        rw [hc90] at hx
        simp only [Pipe.init, SCREEN_WIDTH] at hx ⊢
        push_cast at hx ⊢
        omega
      exact List.Pairwise.imp_of_mem
        (fun _ _ hr => by rw [markPipe_x, markPipe_x]; exact hr) hbase
  · obtain ⟨hsp, hsc⟩ := spawn_step_pipes_neg s gap hc
    have hmem : ∀ p ∈ ((s.manage_pipes gap).check_collisions).pipes,
        ∃ q, q ∈ s.pipes ∧ p = markPipe s.bird.x q := by
      intro p hp
      rw [check_collisions_pipes, manage_pipes_pipes, hsp] at hp
      rcases List.mem_map.1 hp with ⟨q, hq, rfl⟩
      rcases List.mem_filter.1 hq with ⟨hq1, _⟩
      exact ⟨q, hq1, rfl⟩
    refine ⟨?_, ?_, ?_, ?_, ?_, ?_, ?_, ?_, ?_⟩
    · rw [check_collisions_bird, manage_pipes_bird]; exact hbx
    · rw [check_collisions_bird, manage_pipes_bird]; exact hbs
    · rw [check_collisions_counter, manage_pipes_counter, hsc]; omega
    · intro p hp
      rcases hmem p hp with ⟨q, hq, rfl⟩
      rw [markPipe_velocity]
      exact hvel q hq
    · intro p hp
      rcases hmem p hp with ⟨q, hq, rfl⟩
      rw [markPipe_gap_y]
      exact hgl q hq
    · intro p hp
      rcases hmem p hp with ⟨q, hq, rfl⟩
      rw [markPipe_gap_y]
      exact hgh q hq
    · intro p hp
      rw [check_collisions_counter, manage_pipes_counter, hsc]
      rcases hmem p hp with ⟨q, hq, rfl⟩
      rw [markPipe_x]
      have hx := hxb q hq
      simp only [SCREEN_WIDTH] at hx ⊢
      push_cast at hx ⊢
      omega
    · intro p hp hlt
      rcases hmem p hp with ⟨q, hq, rfl⟩
      rw [markPipe_x] at hlt
      exact markPipe_passed_of _ _ (by rw [hbx]; exact hlt)
    · rw [check_collisions_pipes, manage_pipes_pipes, hsp,
        List.pairwise_map]
      have hbase : (s.pipes.filter fun p => !p.off_screen).Pairwise
          fun a b => a.x + 364 ≤ b.x :=
        List.Pairwise.sublist (List.filter_sublist _) hsorted
      exact List.Pairwise.imp_of_mem
        (fun _ _ hr => by rw [markPipe_x, markPipe_x]; exact hr) hbase

theorem inv_play (g : Game) (gap : ℤ) (hg : StateInv g)
    (h1 : PIPE_GAP ≤ gap) (h2 : gap ≤ SCREEN_HEIGHT - PIPE_GAP) :
    StateInv ((g.moved.manage_pipes gap).check_collisions) := by
  apply inv_manage_check (g.moved) gap hg.bird_x hg.bird_size hg.counter_le
    ?_ ?_ ?_ ?_ ?_ h1 h2
  · intro p hp
    rcases List.mem_map.1 hp with ⟨r, hr, rfl⟩
    exact hg.vel r hr
  · intro p hp
    rcases List.mem_map.1 hp with ⟨r, hr, rfl⟩
    exact hg.gap_low r hr
  · intro p hp
    rcases List.mem_map.1 hp with ⟨r, hr, rfl⟩
    exact hg.gap_high r hr
  · intro p hp
    rcases List.mem_map.1 hp with ⟨r, hr, rfl⟩
    show r.x + r.velocity ≤ SCREEN_WIDTH - 4 * (g.pipe_spawn_counter : ℤ) - 4
    rw [hg.vel r hr]
    have hx := hg.x_bound r hr
    simp only [SCREEN_WIDTH] at hx ⊢
    omega
  · show (g.pipes.map Pipe.move).Pairwise fun a b => a.x + 364 ≤ b.x
    rw [List.pairwise_map]
    refine List.Pairwise.imp_of_mem ?_ hg.sorted
    intro a b ha hb hr
    show a.x + a.velocity + 364 ≤ b.x + b.velocity
    rw [hg.vel a ha, hg.vel b hb]
    omega

theorem inv_frame (g : Game) (events : List Event) (gap : ℤ)
    (hg : StateInv g) (h1 : PIPE_GAP ≤ gap)
    (h2 : gap ≤ SCREEN_HEIGHT - PIPE_GAP) :
    StateInv (g.frame events gap) := by
  simp only [Game.frame]
  have hh := inv_handle_events g events hg
  by_cases h : (g.handle_events events).game_over = true
  · rw [if_pos h]; exact hh
  · rw [if_neg h]; exact inv_play _ gap hh h1 h2

theorem reachable_inv {g : Game} (h : Reachable g) : StateInv g := by
  induction h with
  | init => exact inv_reset
  | step events hg h1 h2 ih => exact inv_frame _ events _ ih h1 h2

theorem reachable_runN (n : ℕ) : Reachable (runN n) := by
  induction n with
  | zero => exact Reachable.init
  | succ n ih => exact Reachable.step _ ih (by decide) (by decide)

theorem moved_bird_x (g : Game) : g.moved.bird.x = g.bird.x := rfl

theorem moved_score (g : Game) : g.moved.score = g.score := rfl

theorem moved_counter (g : Game) :
    g.moved.pipe_spawn_counter = g.pipe_spawn_counter := rfl

theorem moved_pipes (g : Game) : g.moved.pipes = g.pipes.map Pipe.move := rfl

theorem moved_game_over (g : Game) : g.moved.game_over = g.game_over := rfl

theorem handle_events_cons (g : Game) (e : Event) (es : List Event) :
    g.handle_events (e :: es) = (g.handle_event e).handle_events es := rfl

theorem handle_event_space_playing (g : Game) (h : g.game_over = false) :
    g.handle_event Event.space = { g with bird := g.bird.jump } := by
  unfold Game.handle_event
  rw [if_neg (by rw [h]; exact Bool.false_ne_true)]

theorem handle_events_playing_parts (g : Game) (events : List Event)
    (h : g.game_over = false) :
    (g.handle_events events).game_over = false ∧
    (g.handle_events events).pipes = g.pipes ∧
    (g.handle_events events).score = g.score ∧
    (g.handle_events events).pipe_spawn_counter = g.pipe_spawn_counter ∧
    (g.handle_events events).bird.x = g.bird.x := by
  induction events generalizing g with
  | nil => exact ⟨h, rfl, rfl, rfl, rfl⟩
  | cons e es ih =>
      rw [handle_events_cons]
      cases e with
      | other => exact ih g h
      | space =>
          rw [handle_event_space_playing g h]
          exact ih _ h

theorem frame_playing (g : Game) (events : List Event) (gap : ℤ)
    (hp : (g.handle_events events).game_over = false) :
    g.frame events gap
      = (((g.handle_events events).moved).manage_pipes gap).check_collisions
      := by
  simp only [Game.frame]
  rw [if_neg (by rw [hp]; exact Bool.false_ne_true)]

theorem check_collisions_game_over (g : Game) :
    g.check_collisions.game_over
      = (g.game_over || ((g.pipes.any fun p =>
          collide g.bird.get_rect p.get_upper_rect ||
          collide g.bird.get_rect p.get_lower_rect) ||
          (decide (g.bird.get_rect.top < 0) ||
           decide (SCREEN_HEIGHT < g.bird.get_rect.bottom)))) := by
  simp only [Game.check_collisions]
  split
  · rename_i h
    rw [h, Bool.or_true]
  · rename_i h
    rw [Bool.not_eq_true] at h
    rw [h, Bool.or_false]

theorem collide_iff_strictOverlap (a b : Rect)
    (ha : 0 < a.w) (hb : 0 < a.h) (hc : 0 < b.w) (hd : 0 < b.h) :
    (collide a b = true ↔ strictOverlap a b) := by
  simp only [collide, strictOverlap, Bool.and_eq_true, decide_eq_true_eq,
    max_lt_iff, lt_min_iff]
  omega

theorem spawn_step_toGame (g : GameZ) (gap : ℤ) :
    (toGame g).spawn_step gap = toGame (g.spawn_step gap) := by
  unfold Game.spawn_step GameZ.spawn_step
  rw [show (toGame g).pipe_spawn_counter = g.pipe_spawn_counter from rfl]
  by_cases hc : 90 < g.pipe_spawn_counter + 1
  · rw [if_pos hc, if_pos hc]
    rfl
  · rw [if_neg hc, if_neg hc]
    rfl

theorem mem_spawn_step (s : Game) (gap : ℤ) {p : Pipe}
    (h : p ∈ (s.spawn_step gap).pipes) :
    p ∈ s.pipes ∨ p = Pipe.init SCREEN_WIDTH gap := by
  unfold Game.spawn_step at h
  by_cases hc : 90 < s.pipe_spawn_counter + 1
  · rw [if_pos hc] at h
    rcases List.mem_append.1 h with h | h
    · exact Or.inl h
    · exact Or.inr (List.mem_singleton.1 h)
  · rw [if_neg hc] at h
    exact Or.inl h

theorem manage_pipes_no_offscreen (s : Game) (gap : ℤ) :
    ∀ p ∈ (s.manage_pipes gap).pipes, ¬(p.x < -PIPE_WIDTH) := by
  intro p hp
  rw [manage_pipes_pipes] at hp
  rcases List.mem_map.1 hp with ⟨q, hq, rfl⟩
  rcases List.mem_filter.1 hq with ⟨_, hq2⟩
  rw [markPipe_x]
  rw [Bool.not_eq_true'] at hq2
  rw [Pipe.off_screen, decide_eq_false_iff_not] at hq2
  exact hq2

theorem runN_game_over (n : ℕ) :
    (runN n).game_over = (runNZ n).game_over := by
  rw [runN_eq_toGame]; rfl

theorem runN_counter (n : ℕ) :
    (runN n).pipe_spawn_counter = (runNZ n).pipe_spawn_counter := by
  rw [runN_eq_toGame]; rfl

theorem runN_bird_x (n : ℕ) : (runN n).bird.x = (runNZ n).bird.x := by
  rw [runN_eq_toGame]; rfl

theorem frame_pipes_bridge (n : ℕ) (events : List Event) (gap : ℤ) :
    ((runN n).frame events gap).pipes
      = ((runNZ n).frame events gap).pipes := by
  rw [runN_eq_toGame, frame_toGame]
  rfl

theorem removal_candidates_runN (n : ℕ) (events : List Event) (gap : ℤ) :
    (runN n).removal_candidates events gap
      = (runNZ n).removal_candidates events gap := by
  unfold Game.removal_candidates GameZ.removal_candidates
  rw [runN_eq_toGame, handle_events_toGame, moved_toGame, spawn_step_toGame]
  rfl

/-- C4 counterexample: for the pipe with the smallest legal gap center
(gap_y = 150), the lower barrier's bottom edge is 825, not the screen height
600 the claim asserts. -/
theorem C4_counterexample :
    (Pipe.init 0 150).get_lower_rect.bottom = 825
    ∧ ¬((Pipe.init 0 150).get_lower_rect.bottom = SCREEN_HEIGHT) := by
  constructor
  · decide
  · decide

/-- C4 (amended): the upper barrier spans y = 0 to gapCenterY - gapSize/2 as
claimed, but the lower barrier, built with height SCREEN_HEIGHT, spans from
gapCenterY + gapSize/2 down to gapCenterY + gapSize/2 + 600 — past the screen
bottom, whose value 600 it reaches only as the rectangle's height. -/
theorem C4_barrier_spans (p : Pipe) :
    p.get_upper_rect.top = 0
    ∧ p.get_upper_rect.bottom = p.gap_y - PIPE_GAP / 2
    ∧ p.get_lower_rect.top = p.gap_y + PIPE_GAP / 2
    ∧ p.get_lower_rect.bottom = p.gap_y + PIPE_GAP / 2 + SCREEN_HEIGHT := by
  refine ⟨rfl, ?_, rfl, rfl⟩
  show (0 : ℤ) + (p.gap_y - PIPE_GAP / 2) = p.gap_y - PIPE_GAP / 2
  ring

/-- C6 counterexample: the state after 182 frames of the concrete schedule
`runN` is reachable and holds two pipes with the earlier-spawned (earlier in
the list) at x = 36 and the later at x = 400; the list is not descending in
x as the claim asserts. -/
theorem C6_counterexample :
    Reachable (runN 182)
    ∧ (runN 182).pipes.map Pipe.x = [36, 400]
    ∧ ¬((runN 182).pipes.Pairwise fun a b => b.x < a.x) := by
  refine ⟨reachable_runN 182, ?_, ?_⟩
  · rw [runN_pipes]
    decide
  · have hl : (runNZ 182).pipes
        = [Pipe.mk 36 300 (-4) false, Pipe.mk 400 300 (-4) false] := by decide
    intro hpw
    rw [runN_pipes, hl] at hpw
    rcases List.pairwise_cons.1 hpw with ⟨hrel, _⟩
    have h2 := hrel _ (List.mem_singleton.2 rfl)
    exact absurd h2 (by decide)

/-- C6 (amended): in every reachable state the pipe list, which is in spawn
order, is sorted by x strictly ascending: an obstacle earlier in the list has
a strictly smaller x than any later one. -/
theorem C6_pipes_ascending (g : Game) (hr : Reachable g) :
    g.pipes.Pairwise fun a b => a.x < b.x := by
  refine List.Pairwise.imp ?_ (reachable_inv hr).sorted
  intro a b h
  omega

/-- C6 witness: the amended ordering at the reachable two-pipe state after
182 frames of the concrete schedule. -/
theorem C6_pipes_ascending_witness :
    (runN 182).pipes.Pairwise fun a b => a.x < b.x :=
  C6_pipes_ascending (runN 182) (reachable_runN 182)

/-- C7: once the bird's velocity is positive, every further `move` (gravity
0.5 added to the velocity, then the velocity added to y) keeps the velocity
positive, so y strictly increases on every subsequent frame with no jump. -/
theorem C7_monotone_fall (b : Bird) (h : 0 < b.velocity) (n : ℕ) :
    (Bird.move^[n] b).y < (Bird.move^[n + 1] b).y := by
  have hgrav : (0 : ℚ) < GRAVITY := by norm_num [GRAVITY]
  have hv : ∀ m : ℕ, 0 < (Bird.move^[m] b).velocity := by
    intro m
    induction m with
    | zero => simpa using h
    | succ m ih =>
        rw [Function.iterate_succ_apply']
        show 0 < (Bird.move^[m] b).velocity + GRAVITY
        linarith
  rw [Function.iterate_succ_apply']
  show (Bird.move^[n] b).y
    < (Bird.move^[n] b).y + ((Bird.move^[n] b).velocity + GRAVITY)
  have hvn := hv n
  linarith

/-- C7 witness: a bird with velocity 1 strictly descends the screen (y grows)
on the next frame. -/
theorem C7_monotone_fall_witness :
    (Bird.move^[0] (Bird.mk 50 300 20 1)).y
      < (Bird.move^[0 + 1] (Bird.mk 50 300 20 1)).y :=
  C7_monotone_fall (Bird.mk 50 300 20 1) (by norm_num) 0

/-- C10: in every reachable state any two distinct pipes, in list order, have
x coordinates at least 364 apart, and since 364 > 80 = PIPE_WIDTH their
barrier rectangles never overlap horizontally (the earlier pipe's right edge
is strictly left of the later pipe's left edge). -/
theorem C10_pipe_spacing (g : Game) (hr : Reachable g) :
    g.pipes.Pairwise fun a b =>
      a.x + 364 ≤ b.x ∧ a.x + PIPE_WIDTH < b.x := by
  refine List.Pairwise.imp ?_ (reachable_inv hr).sorted
  intro a b h
  simp only [PIPE_WIDTH]
  omega

/-- C10 witness: the spacing at the reachable two-pipe state after 182 frames
of the concrete schedule (the pipes sit at x = 36 and x = 400). -/
theorem C10_pipe_spacing_witness :
    (runN 182).pipes.Pairwise fun a b =>
      a.x + 364 ≤ b.x ∧ a.x + PIPE_WIDTH < b.x :=
  C10_pipe_spacing (runN 182) (reachable_runN 182)

/-- C3 counterexample: frame 91 of the concrete schedule is the first spawn
frame; the spawned pipe sits exactly at the right screen edge x = 400 when
that frame's collision check runs — not strictly inside it — because
`Game.run` moves pipes before `_manage_pipes` spawns. -/
theorem C3_counterexample :
    (runN 90).pipes = []
    ∧ (runN 91).pipes.map Pipe.x = [SCREEN_WIDTH]
    ∧ ¬(SCREEN_WIDTH < SCREEN_WIDTH) := by
  refine ⟨?_, ?_, by decide⟩
  · rw [runN_pipes]; decide
  · rw [runN_pipes]; decide

/-- C3 (amended): in a playing frame the per-frame update advances the
existing obstacles first (in `Game.run`) and only then increments the spawn
counter and spawns; an obstacle spawned during the frame is appended last, at
exactly x = SCREEN_WIDTH, unmoved, while every other surviving pipe was
advanced by its velocity; the counter resets to 0. -/
theorem C3_spawn_not_advanced (g : Game) (events : List Event) (gap : ℤ)
    (hp : g.game_over = false) (hbx : g.bird.x = 50)
    (hc : g.pipe_spawn_counter = 90) :
    (g.frame events gap).pipes.getLast? = some (Pipe.init SCREEN_WIDTH gap)
    ∧ (g.frame events gap).pipe_spawn_counter = 0
    ∧ ∀ p ∈ (g.frame events gap).pipes.dropLast, ∃ q ∈ g.pipes,
        p.x = q.x + q.velocity := by
  obtain ⟨hgh, hpipes, _, hcnt, hbx2⟩ := handle_events_playing_parts g events hp
  have hfr := frame_playing g events gap hgh
  have hcond : 90 < ((g.handle_events events).moved).pipe_spawn_counter + 1 := by
    rw [moved_counter, hcnt, hc]
    omega
  obtain ⟨hsp, hsc⟩ := spawn_step_pipes_pos _ gap hcond
  have hpfin : (g.frame events gap).pipes
      = ((((g.handle_events events).moved).pipes.filter fun p =>
          !p.off_screen).map (markPipe 50))
        ++ [Pipe.init SCREEN_WIDTH gap] := by
    rw [hfr, check_collisions_pipes, manage_pipes_pipes, moved_bird_x, hbx2,
      hbx, hsp, List.filter_append, List.map_append]
    rfl
  refine ⟨?_, ?_, ?_⟩
  · rw [hpfin, List.getLast?_concat]
  · rw [hfr, check_collisions_counter, manage_pipes_counter, hsc]
  · intro p hp'
    rw [hpfin, List.dropLast_concat] at hp'
    rcases List.mem_map.1 hp' with ⟨q', hq', rfl⟩
    rcases List.mem_filter.1 hq' with ⟨hq1, _⟩
    rw [moved_pipes, hpipes] at hq1
    rcases List.mem_map.1 hq1 with ⟨q, hq, rfl⟩
    exact ⟨q, hq, by rw [markPipe_x]; rfl⟩

/-- C3 witness: the amended behaviour on the first spawn frame of the
concrete schedule. -/
theorem C3_spawn_not_advanced_witness :
    ((runN 90).frame [] 300).pipes.getLast?
      = some (Pipe.init SCREEN_WIDTH 300)
    ∧ ((runN 90).frame [] 300).pipe_spawn_counter = 0 := by
  have h := C3_spawn_not_advanced (runN 90) [] 300
    (by rw [runN_game_over]; decide)
    (by rw [runN_bird_x]; decide)
    (by rw [runN_counter]; decide)
  exact ⟨h.1, h.2.1⟩

/-- C5 counterexample: the pipe whose leading edge (its left side, at x = -4)
exited the visible region on frame 192 of the concrete schedule is still
retained two frames later (x = -12 on frame 194), so removal happens more
than one frame past the leading edge's exit. -/
theorem C5_counterexample :
    Reachable (runN 194)
    ∧ (runN 192).pipes.map Pipe.x = [-4, 360]
    ∧ (runN 194).pipes.map Pipe.x = [-12, 352]
    ∧ (-4 : ℤ) < 0 := by
  refine ⟨reachable_runN 194, ?_, ?_, by decide⟩
  · rw [runN_pipes]; decide
  · rw [runN_pipes]; decide

/-- C5 (amended): `off_screen` is true exactly when x + PIPE_WIDTH < 0; the
removal pass removes only pipes that have fully exited (trailing edge past
the left screen edge), and a surviving pipe whose trailing edge has reached
the left screen edge is off screen, hence removed, on the next frame. -/
theorem C5_offscreen_removal (g : Game) (events : List Event) (gap : ℤ)
    (hr : Reachable g) (hp : g.game_over = false)
    (h1 : PIPE_GAP ≤ gap) (h2 : gap ≤ SCREEN_HEIGHT - PIPE_GAP) :
    (∀ p : Pipe, p.off_screen = true ↔ p.x + PIPE_WIDTH < 0)
    ∧ (∀ p ∈ g.removal_candidates events gap, p.off_screen = true →
        p.x + PIPE_WIDTH < 0)
    ∧ (∀ p ∈ (g.frame events gap).pipes, p.x + PIPE_WIDTH ≤ 0 →
        (Pipe.move p).off_screen = true) := by
  have hiff : ∀ p : Pipe, p.off_screen = true ↔ p.x + PIPE_WIDTH < 0 := by
    intro p
    rw [Pipe.off_screen, decide_eq_true_eq]
    constructor <;> intro <;> omega
  refine ⟨hiff, fun p _ hoff => (hiff p).1 hoff, ?_⟩
  intro p hp' hle
  have hinv := reachable_inv (Reachable.step events hr h1 h2)
  have hvel := hinv.vel p hp'
  have hgh : (g.handle_events events).game_over = false :=
    (handle_events_playing_parts g events hp).1
  have hfr := frame_playing g events gap hgh
  have hub : ¬(p.x < -PIPE_WIDTH) := by
    apply manage_pipes_no_offscreen _ gap
    rw [← check_collisions_pipes, ← hfr]
    exact hp'
  rw [Pipe.off_screen, decide_eq_true_eq]
  show p.x + p.velocity < -PIPE_WIDTH
  rw [hvel]
  simp only [PIPE_WIDTH] at hub hle ⊢
  omega

/-- C5 witness: the surviving pipe at x = -80 after frame 211 of the concrete
schedule has its trailing edge exactly at the screen edge and is off screen
after its next move. -/
theorem C5_offscreen_removal_witness :
    Pipe.mk (-80) 300 (-4) true ∈ ((runN 210).frame [] 300).pipes
    ∧ (Pipe.move (Pipe.mk (-80) 300 (-4) true)).off_screen = true := by
  have hmem : Pipe.mk (-80) 300 (-4) true ∈ ((runN 210).frame [] 300).pipes := by
    rw [frame_pipes_bridge]
    decide
  refine ⟨hmem, ?_⟩
  exact (C5_offscreen_removal (runN 210) [] 300 (reachable_runN 210)
    (by rw [runN_game_over]; decide) (by decide) (by decide)).2.2
    _ hmem (by decide)

/-- In a state where every event of a frame is a non-SPACE key, the event
loop leaves the state unchanged. -/
theorem handle_events_no_space (g : Game) (events : List Event)
    (hnsp : Event.space ∉ events) : g.handle_events events = g := by
  induction events with
  | nil => rfl
  | cons e es ih =>
      cases e with
      | space => exact absurd (List.mem_cons_self _ _) hnsp
      | other =>
          rw [handle_events_cons]
          exact ih fun hc => hnsp (List.mem_cons_of_mem _ hc)

/-- C8: after the game is over, frames whose events contain no SPACE press
leave the whole state — bird position and velocity, every pipe's position and
passed flag, and the score — exactly unchanged, over any number of frames. -/
theorem C8_over_frozen (g : Game) (frames : List (List Event × ℤ))
    (hover : g.game_over = true)
    (hns : ∀ f ∈ frames, Event.space ∉ f.1) :
    frames.foldl (fun s f => s.frame f.1 f.2) g = g := by
  have hone : ∀ (events : List Event) (gap : ℤ), Event.space ∉ events →
      g.frame events gap = g := by
    intro events gap hnsp
    simp only [Game.frame]
    rw [handle_events_no_space g events hnsp, if_pos hover]
  revert hns
  induction frames with
  | nil => intro _; rfl
  | cons f fs ih =>
      intro hns
      rw [List.foldl_cons, hone f.1 f.2 (hns f (List.mem_cons_self f fs))]
      exact ih fun q hq => hns q (List.mem_cons_of_mem f hq)

/-- C8 witness: a game-over state is untouched by two space-free frames. -/
theorem C8_over_frozen_witness :
    [([Event.other], (300 : ℤ)), ([], 200)].foldl
      (fun s f => s.frame f.1 f.2) { Game.reset_game with game_over := true }
      = { Game.reset_game with game_over := true } :=
  C8_over_frozen _ _ rfl (by decide)

/-- C9: in a playing frame from a reachable state, every pipe the removal
pass deletes as off screen (x < -PIPE_WIDTH, after this frame's movement) has
already been marked passed — and hence contributed its score increment — in
an earlier frame, because passing happens at x + 80 < 50 (x < -30), 50 units
of travel before removal is possible. -/
theorem C9_removed_pipes_scored (g : Game) (events : List Event) (gap : ℤ)
    (hr : Reachable g) (hp : g.game_over = false) :
    ∀ p ∈ g.removal_candidates events gap, p.off_screen = true →
      p.passed = true := by
  intro p hp' hoff
  have hinv := reachable_inv hr
  obtain ⟨hgh, hpipes, _, _, _⟩ := handle_events_playing_parts g events hp
  unfold Game.removal_candidates at hp'
  rcases mem_spawn_step _ gap hp' with h | rfl
  · rw [moved_pipes, hpipes] at h
    rcases List.mem_map.1 h with ⟨q, hq, rfl⟩
    rw [Pipe.off_screen, decide_eq_true_eq] at hoff
    have hvel := hinv.vel q hq
    have hxlt : q.x + PIPE_WIDTH < 50 := by
      have hqx : q.x + q.velocity < -PIPE_WIDTH := hoff
      rw [hvel] at hqx
      simp only [PIPE_WIDTH] at hqx ⊢
      omega
    exact hinv.passed_inv q hq hxlt
  · rw [Pipe.off_screen, decide_eq_true_eq] at hoff
    have hc : (SCREEN_WIDTH : ℤ) < -PIPE_WIDTH := hoff
    exact absurd hc (by decide)

/-- C9 witness: on frame 212 of the concrete schedule the removal pass
deletes the pipe at x = -84, and that pipe is already passed. -/
theorem C9_removed_pipes_scored_witness :
    Pipe.mk (-84) 300 (-4) true ∈ (runN 211).removal_candidates [] 300
    ∧ (Pipe.mk (-84) 300 (-4) true).off_screen = true
    ∧ (Pipe.mk (-84) 300 (-4) true).passed = true := by
  have hmem : Pipe.mk (-84) 300 (-4) true
      ∈ (runN 211).removal_candidates [] 300 := by
    rw [removal_candidates_runN]
    decide
  exact ⟨hmem, by decide, C9_removed_pipes_scored (runN 211) [] 300
    (reachable_runN 211) (by rw [runN_game_over]; decide) _ hmem (by decide)⟩

/-- C2: in a playing frame the score increases by exactly the number of pipes
of this frame's scoring list that newly satisfy the crossing condition
(trailing edge x + PIPE_WIDTH strictly past the bird's fixed x) and were not
yet passed; the surviving pipes are exactly that list with those pipes — and
only those — marked passed; already-passed pipes stay passed, and movement
never changes a passed flag, so the flag flips false→true at most once over a
pipe's lifetime. -/
theorem C2_score_counts_new_passes (g : Game) (events : List Event) (gap : ℤ)
    (hp : g.game_over = false) :
    ((g.frame events gap).score
      = g.score + ((g.prescore events gap).filter fun p =>
          decide (p.x + PIPE_WIDTH < g.bird.x ∧ p.passed = false)).length)
    ∧ (g.frame events gap).pipes
      = (g.prescore events gap).map (markPipe g.bird.x)
    ∧ (∀ p ∈ g.prescore events gap, p.passed = true →
        (markPipe g.bird.x p).passed = true)
    ∧ (∀ p : Pipe, (Pipe.move p).passed = p.passed) := by
  obtain ⟨hgh, hpipes, hscore, hcnt, hbx⟩ :=
    handle_events_playing_parts g events hp
  have hfr := frame_playing g events gap hgh
  refine ⟨?_, ?_, fun p _ hpass => markPipe_passed_mono _ p hpass,
    fun p => rfl⟩
  · rw [hfr, check_collisions_score, manage_pipes_score, moved_bird_x, hbx,
      moved_score, hscore]
    rfl
  · rw [hfr, check_collisions_pipes, manage_pipes_pipes, moved_bird_x, hbx]
    rfl

/-- C2 witness: the scoring accounting on the first frame from the initial
state. -/
theorem C2_score_counts_new_passes_witness :
    ((Game.reset_game.frame [] 300).score
      = Game.reset_game.score + ((Game.reset_game.prescore [] 300).filter
          fun p => decide (p.x + PIPE_WIDTH < Game.reset_game.bird.x ∧
            p.passed = false)).length)
    ∧ (Game.reset_game.frame [] 300).pipes
      = (Game.reset_game.prescore [] 300).map
          (markPipe Game.reset_game.bird.x) :=
  ⟨(C2_score_counts_new_passes Game.reset_game [] 300 rfl).1,
   (C2_score_counts_new_passes Game.reset_game [] 300 rfl).2.1⟩

theorem check_hit_iff_spec (m : Game) (hsz : m.bird.size = 20)
    (hgl : ∀ p ∈ m.pipes, PIPE_GAP ≤ p.gap_y) :
    (((m.pipes.any fun p =>
        collide m.bird.get_rect p.get_upper_rect ||
        collide m.bird.get_rect p.get_lower_rect) ||
      (decide (m.bird.get_rect.top < 0) ||
       decide (SCREEN_HEIGHT < m.bird.get_rect.bottom))) = true
      ↔ specCollision m.bird m.pipes) := by
  unfold specCollision
  rw [Bool.or_eq_true, List.any_eq_true]
  apply or_congr
  · apply exists_congr
    intro p
    apply and_congr_right
    intro hp
    rw [Bool.or_eq_true]
    have hbw : (0 : ℤ) < m.bird.get_rect.w := by
      show (0 : ℤ) < m.bird.size
      rw [hsz]
      norm_num
    have hbh : (0 : ℤ) < m.bird.get_rect.h := by
      show (0 : ℤ) < m.bird.size
      rw [hsz]
      norm_num
    have hup : (0 : ℤ) < p.get_upper_rect.h := by
      show (0 : ℤ) < p.gap_y - PIPE_GAP / 2
      have hg := hgl p hp
      have h75 : (PIPE_GAP : ℤ) / 2 = 75 := by norm_num [PIPE_GAP]
      rw [h75]
      simp only [PIPE_GAP] at hg
      omega
    apply or_congr
    · exact collide_iff_strictOverlap _ _ hbw hbh
        (by show (0 : ℤ) < PIPE_WIDTH; decide) hup
    · exact collide_iff_strictOverlap _ _ hbw hbh
        (by show (0 : ℤ) < PIPE_WIDTH; decide)
        (by show (0 : ℤ) < SCREEN_HEIGHT; decide)
  · simp

/-- C1: a playing frame from a reachable state ends in game over exactly when,
after all of that frame's movement (and pipe bookkeeping), the bird's
bounding rectangle strictly overlaps the upper or lower rectangle of some
live pipe, or its top is above y = 0, or its bottom is below the screen
height; otherwise the game stays in play. -/
theorem C1_over_iff_collision (g : Game) (events : List Event) (gap : ℤ)
    (hr : Reachable g) (hp : g.game_over = false)
    (h1 : PIPE_GAP ≤ gap) (h2 : gap ≤ SCREEN_HEIGHT - PIPE_GAP) :
    ((g.frame events gap).game_over = true ↔
      specCollision (g.frame events gap).bird (g.frame events gap).pipes) := by
  have hinv : StateInv (g.frame events gap) :=
    reachable_inv (Reachable.step events hr h1 h2)
  have hgh : (g.handle_events events).game_over = false :=
    (handle_events_playing_parts g events hp).1
  have hfr := frame_playing g events gap hgh
  have hbird : (g.frame events gap).bird
      = ((g.handle_events events).moved.manage_pipes gap).bird := by
    rw [hfr, check_collisions_bird]
  have hpip : (g.frame events gap).pipes
      = ((g.handle_events events).moved.manage_pipes gap).pipes := by
    rw [hfr, check_collisions_pipes]
  have hmgo : ((g.handle_events events).moved.manage_pipes gap).game_over
      = false := by
    rw [manage_pipes_game_over, moved_game_over]
    exact hgh
  have hgo : (g.frame events gap).game_over
      = ((((g.handle_events events).moved.manage_pipes gap).pipes.any
          fun p =>
          collide
            ((g.handle_events events).moved.manage_pipes gap).bird.get_rect
            p.get_upper_rect ||
          collide
            ((g.handle_events events).moved.manage_pipes gap).bird.get_rect
            p.get_lower_rect) ||
        (decide
          (((g.handle_events events).moved.manage_pipes
            gap).bird.get_rect.top < 0) ||
         decide (SCREEN_HEIGHT <
          ((g.handle_events events).moved.manage_pipes
            gap).bird.get_rect.bottom))) := by
    rw [hfr, check_collisions_game_over, hmgo, Bool.false_or]
  rw [hgo, hbird, hpip]
  apply check_hit_iff_spec
  · have hbs := hinv.bird_size
    rw [hbird] at hbs
    exact hbs
  · intro p hp'
    refine hinv.gap_low p ?_
    rw [hpip]
    exact hp'

/-- C1 witness: the first frame from the initial state, where no collision
occurs and the game stays in play. -/
theorem C1_over_iff_collision_witness :
    ((Game.reset_game.frame [] 300).game_over = true ↔
      specCollision (Game.reset_game.frame [] 300).bird
        (Game.reset_game.frame [] 300).pipes) :=
  C1_over_iff_collision Game.reset_game [] 300 Reachable.init rfl
    (by decide) (by decide)
